import Mathlib

/-!
Shallow embedding of the command-discovery, caching, install/update and
dynamic-loading core of the `paopao-cli` repository
(`src/paopao_cli/main.py`), together with theorems settling the frozen
claims about that code.

Python dictionaries are modelled as association lists with replace-on-insert
semantics (`dinsert`); `{**a, **b}` becomes `dunion a b`.  Machine floats
used only as monotone timestamps (`st_mtime`, `time.time()`) are modelled as
`Int`.  Filesystem and subprocess effects are modelled as explicit
environment records supplied to the translated functions.
-/

namespace Paopao

/-! ## Python dict model -/

/-- Lookup of a key in an association list (first occurrence), the model of
`d[k]` / `k in d` on a Python dict. -/
def dlookup {V : Type} (k : String) : List (String × V) → Option V
  | [] => none
  | (k', v) :: t => if k' = k then some v else dlookup k t

/-- `d[k] = v` on a Python dict: replace the first binding of `k`, or append
if absent. -/
def dinsert {V : Type} (k : String) (v : V) : List (String × V) → List (String × V)
  | [] => [(k, v)]
  | (k', v') :: t => if k' = k then (k, v) :: t else (k', v') :: dinsert k v t

/-- `{**a, **b}`: start from `a` and write every binding of `b` over it. -/
def dunion {V : Type} (a b : List (String × V)) : List (String × V) :=
  b.foldl (fun acc kv => dinsert kv.1 kv.2 acc) a

theorem dlookup_dinsert_self {V : Type} (k : String) (v : V) (d : List (String × V)) :
    dlookup k (dinsert k v d) = some v := by
  induction d with
  | nil => simp [dinsert, dlookup]
  | cons hd t ih =>
    by_cases h : hd.1 = k
    · simp [dinsert, dlookup, h]
    · simp [dinsert, dlookup, h, ih]

theorem dlookup_dinsert_ne {V : Type} (k k' : String) (v : V) (d : List (String × V))
    (h : k' ≠ k) : dlookup k (dinsert k' v d) = dlookup k d := by
  induction d with
  | nil => simp [dinsert, dlookup, h]
  | cons hd t ih =>
    rcases hd with ⟨a, b⟩
    by_cases ha : a = k'
    · subst ha
      simp [dinsert, dlookup, h]
    · by_cases hk : a = k
      · subst hk
        simp [dinsert, dlookup, ha]
      · simp [dinsert, dlookup, ha, hk, ih]

theorem dlookup_eq_none_of_not_mem {V : Type} (k : String) (d : List (String × V))
    (h : k ∉ d.map Prod.fst) : dlookup k d = none := by
  induction d with
  | nil => rfl
  | cons hd t ih =>
    simp only [List.map_cons, List.mem_cons] at h
    push_neg at h
    have hne : hd.1 ≠ k := fun hh => h.1 hh.symm
    simp [dlookup, hne, ih h.2]

/-- Lookup in a Python merge `{**a, **b}`: a binding of `b` wins, otherwise
the binding of `a` is kept.  `b` has no duplicate keys (Python dicts never
do). -/
theorem dlookup_dunion {V : Type} (a b : List (String × V))
    (hb : (b.map Prod.fst).Nodup) (k : String) :
    dlookup k (dunion a b) = (dlookup k b).orElse (fun _ => dlookup k a) := by
  induction b generalizing a with
  | nil => simp [dunion, dlookup, Option.orElse]
  | cons hd t ih =>
    simp only [List.map_cons, List.nodup_cons] at hb
    have step : dunion a (hd :: t) = dunion (dinsert hd.1 hd.2 a) t := by
      simp [dunion]
    rw [step, ih _ hb.2]
    by_cases hk : hd.1 = k
    · subst hk
      have ht : dlookup hd.1 t = none :=
        dlookup_eq_none_of_not_mem _ _ hb.1
      simp [dlookup, ht, dlookup_dinsert_self, Option.orElse]
    · simp [dlookup, hk, dlookup_dinsert_ne k hd.1 hd.2 a (fun h => hk h)]

/-! ## Data model (`CommandMetadata`, descriptor files) -/

/-- `CommandMetadata` dataclass of `main.py`.  `Optional[...]` fields become
`Option`; the dataclass defaults are the Lean field defaults. -/
structure CommandMetadata where
  name : String
  version : String := "Unknown"
  author : String := "Unknown"
  description : String := "No description available"
  source : String := "community"
  repo_url : Option String := none
  installed_date : Option String := none
  last_updated : Option String := none
  dependencies : List String := []
  python_version : String := "3.6+"
  deriving Repr, DecidableEq

/-- Parsed content of a `ppc.project.json` descriptor: every field optional,
`project_data.get(key, default)` becomes `Option.getD`.  An absent or
unparseable file is the all-`none` record (Python: `project_data = {}`). -/
structure ProjectData where
  version : Option String := none
  author : Option String := none
  description : Option String := none
  dependencies : Option (List String) := none
  python_version : Option String := none
  deriving Repr, DecidableEq

/-- Parsed content of a `.ppc.git` descriptor; absent or unparseable file is
the all-`none` record (Python: `git_data = {}`). -/
structure GitData where
  repo_url : Option String := none
  installed_date : Option String := none
  last_updated : Option String := none
  deriving Repr, DecidableEq

/-- The `source` argument of `load_command_metadata`: its two call sites pass
the literals `"official"` and `"community"`. -/
inductive Source
  | official
  | community
  deriving Repr, DecidableEq

def Source.toString : Source → String
  | .official => "official"
  | .community => "community"

/-- The `defaults` table of `load_command_metadata`, line 676 of `main.py`:
(version, author, description) per source. -/
def metadataDefaults : Source → String × String × String
  | .official => ("Built-In", "PaoPaoDev", "Built-in command")
  | .community => ("Unknown", "Unknown", "Community command")

/-- `CommandManager.load_command_metadata` (main.py lines 653-692), with the
two descriptor reads abstracted into the already-parsed `project` and
`git` records. -/
def load_command_metadata (name : String) (src : Source)
    (project : ProjectData) (git : GitData) : CommandMetadata :=
  { name := name
    version := project.version.getD (metadataDefaults src).1
    author := project.author.getD (metadataDefaults src).2.1
    description := project.description.getD (metadataDefaults src).2.2
    source := src.toString
    repo_url := git.repo_url
    installed_date := git.installed_date
    last_updated := git.last_updated
    dependencies := project.dependencies.getD []
    python_version := project.python_version.getD "3.6+" }

/-! ## Cache layer (`CacheManager`) -/

/-- One value of the cache map: `{'metadata': ..., 'mtime': ...}`.  A missing
`'mtime'` key (possible in a hand-edited document) is modelled by `none`;
`entry.get('mtime', 0)` becomes `mtime.getD 0`. -/
structure CacheEntry where
  metadata : CommandMetadata
  mtime : Option Int
  deriving Repr, DecidableEq

/-- The in-memory cache map: path-digest key to entry. -/
abbrev CacheMap := List (String × CacheEntry)

/-- On-disk state of `commands_cache.json` when the file exists:
its `st_mtime` and its parsed content (`none` = invalid JSON/encoding). -/
structure CacheDoc where
  mtime : Int
  parsed : Option CacheMap

/-- `CacheManager.expiry_seconds` (constructor, line 431). -/
def expiry_seconds (expiry_hours : Int) : Int := expiry_hours * 3600

/-- `Config.CACHE_EXPIRY_HOURS` default. -/
def CACHE_EXPIRY_HOURS : Int := 24

/-- `CacheManager.is_cache_valid` (lines 438-447): the document exists and
its age `time.time() - st_mtime` is strictly below `expiry_seconds`. -/
def is_cache_valid (now : Int) (doc : Option CacheDoc) (expirySeconds : Int) : Bool :=
  match doc with
  | none => false
  | some d => now - d.mtime < expirySeconds

/-- `CacheManager.load_cache` (lines 449-457): empty map unless the document
is valid; a parse failure also degrades to the empty map. -/
def load_cache (now : Int) (doc : Option CacheDoc) (expirySeconds : Int) : CacheMap :=
  if is_cache_valid now doc expirySeconds then
    match doc with
    | some d => d.parsed.getD []
    | none => []
  else []

/-! ## Discovery: per-script cache check (`scan_directory` body) -/

/-- The per-script body repeated in `scan_directory` (lines 532-548 and its
three clones): given the loaded cache map, the script's digest key and
current `st_mtime`, and the metadata that `load_command_metadata` would
produce, return the metadata used for the command, the updated cache map,
and whether the descriptor files were (re-)read. -/
def processScript (cache : CacheMap) (key : String) (mtime : Int)
    (fresh : CommandMetadata) : CommandMetadata × CacheMap × Bool :=
  match dlookup key cache with
  | some e =>
    if mtime ≤ e.mtime.getD 0 then
      (e.metadata, cache, false)
    else
      (fresh, dinsert key ⟨fresh, some mtime⟩ cache, true)
  | none => (fresh, dinsert key ⟨fresh, some mtime⟩ cache, true)

/-! ## Discovery: merge and split (`get_available_commands`, lines 637-651) -/

/-- The tail of `get_available_commands`: merge the two scan results
(community over official) and split the merged table into the metadata map
and the path map. -/
def get_available_commands
    (official community : List (String × (CommandMetadata × String))) :
    List (String × CommandMetadata) × List (String × String) :=
  let all := dunion official community
  (all.map (fun x => (x.1, x.2.1)), all.map (fun x => (x.1, x.2.2)))

/-! ## Security gate (`SecurityValidator.validate_url`, lines 364-395) -/

/-- `needle in haystack` on strings: `needle.toList` is a contiguous
sublist of `haystack.toList`. -/
def startsWithChars : List Char → List Char → Bool
  | [], _ => true
  | _ :: _, [] => false
  | a :: as, b :: bs => a = b && startsWithChars as bs

def hasSubChars (n : List Char) : List Char → Bool
  | [] => n.isEmpty
  | c :: t => startsWithChars n (c :: t) || hasSubChars n t

def containsSub (needle hay : String) : Bool :=
  hasSubChars needle.toList hay.toList

/-- ASCII lowering of one character, the effect of Python's `str.lower()`
on URL text. -/
def lowerChar (c : Char) : Char :=
  if 'A' ≤ c ∧ c ≤ 'Z' then Char.ofNat (c.toNat + 32) else c

/-- `url.lower()` on ASCII URL text. -/
def lowerString (s : String) : String := String.mk (s.toList.map lowerChar)

/-- `Config.ALLOWED_URL_SCHEMES` default (set in `__post_init__`). -/
def ALLOWED_URL_SCHEMES : List String := ["https", "git", "ssh"]

/-- `suspicious_patterns` of `validate_url` (line 375). -/
def suspicious_patterns : List String :=
  ["localhost", "127.0.0.1", "0.0.0.0", "file://", ".."]

/-- `SecurityValidator.validate_url`.  `urlparse` is Python stdlib, so its
result is supplied as the pre-parsed `scheme` and `netloc` of the URL.  The
unknown-host branch for `https` only prints a warning, so it does not appear
in the returned verdict. -/
def validate_url (url : String) (scheme netloc : String)
    (allowed_schemes : List String) : Bool × String :=
  if scheme ∉ allowed_schemes then
    (false, "URL scheme not allowed")
  else if suspicious_patterns.any (fun p => containsSub p (lowerString url)) then
    (false, "Suspicious pattern detected")
  else if scheme = "https" ∧ netloc = "" then
    (false, "Invalid hostname")
  else
    (true, "URL is valid")

/-! ## Host process outcome -/

/-- How a top-level command handler finishes, as seen by `main()`
(lines 2009-2030): a plain return, a `sys.exit(code)` raised and left
uncaught, or a plugin-raised `SystemExit` that no handler on the path
catches (`except Exception` does not catch `SystemExit`). -/
inductive HostOutcome
  | normalReturn
  | sysExit (code : Nat)
  | uncaughtSystemExit (code : Nat)
  deriving Repr, DecidableEq

/-- The operating-system exit status of the host process for each outcome:
a normal return of `main()` exits 0; an uncaught `SystemExit` (whether from
`sys.exit` in the host or raised inside a plugin) exits with its code. -/
def processExit : HostOutcome → Nat
  | .normalReturn => 0
  | .sysExit c => c
  | .uncaughtSystemExit c => c

/-! ## Dynamic loader/executor (`load_and_run_command`, lines 694-755) -/

/-- Result of `spec.loader.exec_module(module)` under the 10-second
single-worker timeout. -/
inductive LoadOutcome
  | ok
  | timeout
  | raisesExc
  deriving Repr, DecidableEq

/-- Result of calling `module.main(argv)` on the main thread. -/
inductive MainOutcome
  | returns
  | raisesExc
  | raisesSystemExit (code : Nat)
  deriving Repr, DecidableEq

/-- Environment of one `load_and_run_command` invocation: what discovery,
the security gate, module loading and the plugin itself do. -/
structure RunEnv where
  /-- the command name is a key of the discovered `command_paths` -/
  known : Bool
  /-- the discovered metadata has `source == "community"` -/
  sourceCommunity : Bool
  /-- verdict of `validate_command_file` (only consulted for community) -/
  secSafe : Bool
  /-- `spec_from_file_location` produced a spec with a loader -/
  specOk : Bool
  loadOutcome : LoadOutcome
  /-- `hasattr(module, "main") and callable(module.main)` -/
  hasCallableMain : Bool
  mainOutcome : MainOutcome
  deriving Repr, DecidableEq

/-- `CommandManager.load_and_run_command`.  Every failure path calls
`sys.exit(1)`; a `SystemExit` raised by the plugin's `main` is not caught by
any `except` clause on the path (`except ImportError` / `except Exception`)
and propagates out of the host's `main()` as well. -/
def load_and_run_command (env : RunEnv) : HostOutcome :=
  if ¬env.known then .sysExit 1
  else if env.sourceCommunity ∧ ¬env.secSafe then .sysExit 1
  else if ¬env.specOk then .sysExit 1
  else
    match env.loadOutcome with
    | .timeout => .sysExit 1
    | .raisesExc => .sysExit 1
    | .ok =>
      if ¬env.hasCallableMain then .sysExit 1
      else
        match env.mainOutcome with
        | .returns => .normalReturn
        | .raisesExc => .sysExit 1
        | .raisesSystemExit c => .uncaughtSystemExit c

/-! ## Install orchestrator (`BuiltinCommands.install`, lines 863-1045) -/

/-- One `*.py` file found inside a cloned repository, together with the
verdict `validate_command_file` returns for it (including the interactive
confirmation for risky content). -/
structure ScriptFile where
  fname : String
  safe : Bool
  deriving Repr, DecidableEq

/-- Content of the target directory after a successful `git clone`. -/
structure RepoLayout where
  /-- `commands/` exists and is a directory -/
  hasCommandsDir : Bool
  /-- `*.py` files under `commands/` -/
  commandsPy : List ScriptFile
  /-- `main.py` exists in the target root -/
  hasMainPy : Bool
  /-- `*.py` files directly in the target root -/
  rootPy : List ScriptFile
  /-- all `*.py` files under the target root (recursive) -/
  allPy : List ScriptFile
  deriving Repr, DecidableEq

/-- Result of the `git clone` subprocess. -/
inductive CloneOutcome
  | cloned (repo : RepoLayout)
  | timeoutExpired
  | calledProcessError
  deriving Repr, DecidableEq

/-- Parsed `ppc install` arguments (after `argparse`). -/
structure InstallArgs where
  repo_url : String
  no_shallow : Bool := false
  force : Bool := false
  branch : Option String := none
  no_verify : Bool := false
  deriving Repr, DecidableEq

/-- Environment of one install invocation: subprocess results and
filesystem state, including the `urlparse` of `repo_url`. -/
structure InstallEnv where
  gitAvailable : Bool
  scheme : String
  netloc : String
  /-- the target directory already exists before the install -/
  targetExists : Bool
  /-- answer to `Confirm.ask("Overwrite existing command?")` -/
  confirmOverwrite : Bool
  /-- another process holds the per-target lock and never releases it -/
  lockStuck : Bool
  /-- `shutil.rmtree` of a pre-existing installation succeeds -/
  removeExistingOk : Bool
  clone : CloneOutcome
  deriving Repr, DecidableEq

/-- Observable result of one install invocation. -/
structure InstallResult where
  /-- the target directory exists when the operation returns -/
  targetDirExists : Bool
  /-- reached the success message (metadata written, cache cleared) -/
  succeeded : Bool
  /-- `git clone` was attempted -/
  cloneAttempted : Bool
  outcome : HostOutcome
  deriving Repr, DecidableEq

/-- `BuiltinCommands.install` after argument parsing.  Rollback
(`shutil.rmtree` of the clone) is modelled as succeeding; the code
swallows `rmtree` errors.  The successful-install tail (metadata write,
cache invalidation, info display) is collapsed into `succeeded = true`. -/
def install (args : InstallArgs) (env : InstallEnv) : InstallResult :=
  if ¬env.gitAvailable then
    ⟨env.targetExists, false, false, .normalReturn⟩
  else if ¬args.no_verify ∧
      ¬(validate_url args.repo_url env.scheme env.netloc ALLOWED_URL_SCHEMES).1 then
    ⟨env.targetExists, false, false, .normalReturn⟩
  else if env.targetExists ∧ ¬args.force ∧ ¬env.confirmOverwrite then
    ⟨true, false, false, .normalReturn⟩
  else if env.lockStuck then
    -- LockManager.__enter__ waits 30 s, then `sys.exit(1)`
    ⟨env.targetExists, false, false, .sysExit 1⟩
  else if env.targetExists ∧ ¬env.removeExistingOk then
    ⟨true, false, false, .normalReturn⟩
  else
    match env.clone with
    | .timeoutExpired => ⟨false, false, true, .normalReturn⟩
    | .calledProcessError => ⟨false, false, true, .normalReturn⟩
    | .cloned repo =>
      if repo.hasCommandsDir then
        if ¬args.no_verify ∧ repo.commandsPy.any (fun f => ¬f.safe) then
          ⟨false, false, true, .normalReturn⟩
        else
          ⟨true, true, true, .normalReturn⟩
      else
        if ¬repo.hasMainPy ∧ repo.rootPy = [] then
          ⟨false, false, true, .normalReturn⟩
        else if ¬args.no_verify ∧ repo.allPy.any (fun f => ¬f.safe) then
          ⟨false, false, true, .normalReturn⟩
        else
          ⟨true, true, true, .normalReturn⟩

/-! ## Update (`BuiltinCommands.update`, lines 1633-1779) -/

/-- The `.ppc.git` install record as `update` reads and rewrites it. -/
structure InstallMeta where
  repo_url : Option String := none
  folder_name : Option String := none
  installed_date : Option String := none
  last_updated : Option String := none
  shallow : Option Bool := none
  branch : Option String := none
  deriving Repr, DecidableEq

/-- Parsed `ppc update` arguments. -/
structure UpdateArgs where
  name : String
  force : Bool := false
  deriving Repr, DecidableEq

/-- Environment of one update invocation. -/
structure UpdateEnv where
  /-- the command's directory exists under the community root -/
  targetExists : Bool
  /-- state of the `.ppc.git` file: absent, present-but-invalid-JSON,
  or parsed -/
  meta : Option (Option InstallMeta)
  gitAvailable : Bool
  /-- the `git fetch` / `rev-list` / `reset` subprocess calls all succeed -/
  gitOpsOk : Bool
  /-- `rev-list --count HEAD..origin/HEAD` -/
  commitsBehind : Nat
  /-- `datetime.datetime.now().isoformat()` at the metadata rewrite -/
  now : String
  deriving Repr, DecidableEq

/-- Which message `update` prints on the path taken. -/
inductive UpdateMsg
  | notFound
  | notGitInstalled
  | gitMissing
  | errJson
  | noRepoUrl
  | errGitOps
  | upToDate
  | updated
  | forceUpdated
  deriving Repr, DecidableEq

/-- Observable result of one update invocation. -/
structure UpdateResult where
  /-- state of the `.ppc.git` file when the operation returns -/
  finalMeta : Option (Option InstallMeta)
  /-- the cache document was deleted -/
  cacheInvalidated : Bool
  msg : UpdateMsg
  outcome : HostOutcome
  deriving Repr, DecidableEq

/-- `BuiltinCommands.update` after argument parsing (the
`RICH_AVAILABLE` branch; `RICH_AVAILABLE` is always true because the import
failure raises at startup).  Any subprocess failure inside the progress
block is re-raised as a generic `Exception` and caught by the outer
handler, which prints and returns. -/
def update (args : UpdateArgs) (env : UpdateEnv) : UpdateResult :=
  if ¬env.targetExists then
    ⟨env.meta, false, .notFound, .normalReturn⟩
  else
    match env.meta with
    | none => ⟨none, false, .notGitInstalled, .normalReturn⟩
    | some mp =>
      if ¬env.gitAvailable then
        ⟨env.meta, false, .gitMissing, .normalReturn⟩
      else
        match mp with
        | none => ⟨env.meta, false, .errJson, .normalReturn⟩
        | some m =>
          if m.repo_url = none ∨ m.repo_url = some "" then
            ⟨env.meta, false, .noRepoUrl, .normalReturn⟩
          else if ¬env.gitOpsOk then
            ⟨env.meta, false, .errGitOps, .normalReturn⟩
          else if env.commitsBehind = 0 ∧ ¬args.force then
            ⟨env.meta, false, .upToDate, .normalReturn⟩
          else
            ⟨some (some { m with last_updated := some env.now }), true,
              if env.commitsBehind > 0 then .updated else .forceUpdated,
              .normalReturn⟩

/-! ## Helper lemmas -/

theorem dlookup_map {V W : Type} (f : V → W) (k : String) (l : List (String × V)) :
    dlookup k (l.map (fun x => (x.1, f x.2))) = Option.map f (dlookup k l) := by
  induction l with
  | nil => rfl
  | cons hd t ih => by_cases h : hd.1 = k <;> simp [dlookup, h, ih]

/-- Every branch of `install` either never attempts the clone, or succeeds,
or leaves no target directory behind. -/
theorem install_cases (args : InstallArgs) (env : InstallEnv) :
    (install args env).cloneAttempted = false ∨
    (install args env).succeeded = true ∨
    (install args env).targetDirExists = false := by
  unfold install
  repeat' split
  all_goals simp

end Paopao

namespace Paopao

/-! ## Claim theorems -/

/-- C1: during a discovery pass, a script whose cache entry exists and whose
current modification time is ≤ the stored mtime is served from the cache
(cached record returned verbatim, cache map untouched, no descriptor read);
a script whose modification time exceeds the stored mtime, or which has no
entry, is re-read and its cache entry overwritten with the fresh record and
the current mtime. -/
theorem cache_entry_reuse_and_refresh (cache : CacheMap) (key : String)
    (mtime : Int) (fresh : CommandMetadata) :
    (∀ e, dlookup key cache = some e → mtime ≤ e.mtime.getD 0 →
      processScript cache key mtime fresh = (e.metadata, cache, false)) ∧
    (∀ e, dlookup key cache = some e → e.mtime.getD 0 < mtime →
      processScript cache key mtime fresh =
        (fresh, dinsert key ⟨fresh, some mtime⟩ cache, true)) ∧
    (dlookup key cache = none →
      processScript cache key mtime fresh =
        (fresh, dinsert key ⟨fresh, some mtime⟩ cache, true)) := by
  refine ⟨?_, ?_, ?_⟩
  · intro e he hle
    simp [processScript, he, hle]
  · intro e he hlt
    simp [processScript, he, not_le.mpr hlt]
  · intro he
    simp [processScript, he]

/-- Witness for C1 on a concrete one-entry cache. -/
theorem cache_entry_reuse_and_refresh_witness :
    processScript [("k", ⟨{ name := "a" }, some 10⟩)] "k" 7 { name := "b" } =
      ({ name := "a" }, [("k", ⟨{ name := "a" }, some 10⟩)], false) :=
  (cache_entry_reuse_and_refresh [("k", ⟨{ name := "a" }, some 10⟩)] "k" 7
    { name := "b" }).1 ⟨{ name := "a" }, some 10⟩ (by decide) (by decide)

/-- C2: when an official and a community command share a name, the merged
table of `get_available_commands` maps that name to the community record in
its entirety — its metadata in the first returned map and its path in the
second — for arbitrary contents of the two scan results. -/
theorem community_overrides_official
    (official community : List (String × (CommandMetadata × String)))
    (hnodup : (community.map Prod.fst).Nodup) (name : String)
    (r : CommandMetadata × String)
    (hc : dlookup name community = some r) :
    dlookup name (get_available_commands official community).1 = some r.1 ∧
    dlookup name (get_available_commands official community).2 = some r.2 := by
  have hall : dlookup name (dunion official community) = some r := by
    rw [dlookup_dunion official community hnodup, hc]
    rfl
  constructor
  · show dlookup name ((dunion official community).map (fun x => (x.1, x.2.1))) = _
    rw [dlookup_map (fun v => v.1) name (dunion official community), hall]
    rfl
  · show dlookup name ((dunion official community).map (fun x => (x.1, x.2.2))) = _
    rw [dlookup_map (fun v => v.2) name (dunion official community), hall]
    rfl

/-- Witness for C2: the name `dup` is present in both roots and the merged
result carries the community metadata and path. -/
theorem community_overrides_official_witness :
    dlookup "dup"
      (get_available_commands
        [("dup", ({ name := "dup", source := "official" }, "/off/dup.py"))]
        [("dup", ({ name := "dup", source := "community" }, "/com/dup/commands/dup.py"))]).1 =
      some { name := "dup", source := "community" } ∧
    dlookup "dup"
      (get_available_commands
        [("dup", ({ name := "dup", source := "official" }, "/off/dup.py"))]
        [("dup", ({ name := "dup", source := "community" }, "/com/dup/commands/dup.py"))]).2 =
      some "/com/dup/commands/dup.py" :=
  community_overrides_official
    [("dup", ({ name := "dup", source := "official" }, "/off/dup.py"))]
    [("dup", ({ name := "dup", source := "community" }, "/com/dup/commands/dup.py"))]
    (by decide) "dup"
    ({ name := "dup", source := "community" }, "/com/dup/commands/dup.py")
    (by decide)

/-- C3: `load_cache` returns the cached map only when the document exists,
its age is strictly under the global TTL and it parses; an absent document,
a document at or past the TTL (whatever entries it holds), or a corrupt
document all yield the empty map; the default TTL is 24 hours. -/
theorem load_cache_ttl (now : Int) :
    (load_cache now none (expiry_seconds CACHE_EXPIRY_HOURS) = []) ∧
    (∀ d : CacheDoc, expiry_seconds CACHE_EXPIRY_HOURS ≤ now - d.mtime →
      load_cache now (some d) (expiry_seconds CACHE_EXPIRY_HOURS) = []) ∧
    (∀ d : CacheDoc, d.parsed = none →
      load_cache now (some d) (expiry_seconds CACHE_EXPIRY_HOURS) = []) ∧
    (∀ (d : CacheDoc) (m : CacheMap), d.parsed = some m →
      now - d.mtime < expiry_seconds CACHE_EXPIRY_HOURS →
      load_cache now (some d) (expiry_seconds CACHE_EXPIRY_HOURS) = m) ∧
    expiry_seconds CACHE_EXPIRY_HOURS = 24 * 3600 := by
  refine ⟨rfl, ?_, ?_, ?_, rfl⟩
  · intro d hage
    simp [load_cache, is_cache_valid, not_lt.mpr hage]
  · intro d hcorrupt
    by_cases hv : now - d.mtime < expiry_seconds CACHE_EXPIRY_HOURS
    · simp [load_cache, is_cache_valid, hv, hcorrupt]
    · simp [load_cache, is_cache_valid, hv]
  · intro d m hparsed hv
    simp [load_cache, is_cache_valid, hv, hparsed]

/-- Witness for C3: a document written one hour ago with one entry is
returned, and the same document 25 hours old is treated as absent. -/
theorem load_cache_ttl_witness :
    load_cache 90000 (some ⟨86400, some [("k", ⟨{ name := "a" }, some 3⟩)]⟩)
      (expiry_seconds CACHE_EXPIRY_HOURS) = [("k", ⟨{ name := "a" }, some 3⟩)] :=
  (load_cache_ttl 90000).2.2.2.1 ⟨86400, some [("k", ⟨{ name := "a" }, some 3⟩)]⟩
    [("k", ⟨{ name := "a" }, some 3⟩)] rfl (by decide)

/-- C4 counterexample: a repository providing a `commands/` directory with
zero loadable scripts (and no legacy entry script either) is accepted — the
install succeeds and the target directory remains — refuting "the absence
of any loadable entry script in either layout is a failure requiring
rollback". -/
theorem install_succeeds_with_empty_commands_dir :
    install ⟨"https://github.com/acme/tool", false, false, none, false⟩
      ⟨true, "https", "github.com", false, false, false, true,
        .cloned ⟨true, [], false, [], []⟩⟩ =
      ⟨true, true, true, .normalReturn⟩ := by
  decide

/-- C4 (amended): whenever an install invocation attempts the clone and
fails — clone timeout, non-zero git exit, a security rejection of a cloned
script, or the absence of any Python file in the legacy (no `commands/`
directory) layout — the target directory does not exist when the operation
returns; an empty `commands/` directory, however, is a successful install. -/
theorem install_rollback_after_clone (args : InstallArgs) (env : InstallEnv)
    (hclone : (install args env).cloneAttempted = true)
    (hfail : (install args env).succeeded = false) :
    (install args env).targetDirExists = false := by
  rcases install_cases args env with h | h | h
  · rw [h] at hclone; exact absurd hclone (by simp)
  · rw [h] at hfail; exact absurd hfail (by simp)
  · exact h

/-- Witness for C4 (amended): a clone timeout rolls the target back. -/
theorem install_rollback_after_clone_witness :
    (install ⟨"https://github.com/acme/tool", false, false, none, false⟩
      ⟨true, "https", "github.com", false, false, false, true,
        .timeoutExpired⟩).targetDirExists = false :=
  install_rollback_after_clone
    ⟨"https://github.com/acme/tool", false, false, none, false⟩
    ⟨true, "https", "github.com", false, false, false, true, .timeoutExpired⟩
    (by decide) (by decide)

/-- C5 counterexample: the four failure kinds of `load_and_run_command` —
unknown command, load timeout, missing callable `main`, uncaught runtime
failure — all exit with the same status 1, so the non-zero values are not
distinct. -/
theorem failure_exit_codes_not_distinct :
    processExit (load_and_run_command ⟨false, false, true, true, .ok, true, .returns⟩) = 1 ∧
    processExit (load_and_run_command ⟨true, false, true, true, .timeout, true, .returns⟩) = 1 ∧
    processExit (load_and_run_command ⟨true, false, true, true, .ok, false, .returns⟩) = 1 ∧
    processExit (load_and_run_command ⟨true, false, true, true, .ok, true, .raisesExc⟩) = 1 := by
  decide

/-- C5 (amended): the host exits 0 exactly on success, and exits with the
non-zero status 1 — the same value, not distinct values — on each of the
four failure kinds (unknown command, load timeout, missing callable `main`,
uncaught runtime failure inside the plugin). -/
theorem exit_codes_zero_success_one_failure (env : RunEnv) :
    (env.known = true → (env.sourceCommunity = true → env.secSafe = true) →
      env.specOk = true → env.loadOutcome = .ok → env.hasCallableMain = true →
      env.mainOutcome = .returns →
      processExit (load_and_run_command env) = 0) ∧
    (env.known = false → processExit (load_and_run_command env) = 1) ∧
    (env.known = true → (env.sourceCommunity = true → env.secSafe = true) →
      env.specOk = true → env.loadOutcome = .timeout →
      processExit (load_and_run_command env) = 1) ∧
    (env.known = true → (env.sourceCommunity = true → env.secSafe = true) →
      env.specOk = true → env.loadOutcome = .ok → env.hasCallableMain = false →
      processExit (load_and_run_command env) = 1) ∧
    (env.known = true → (env.sourceCommunity = true → env.secSafe = true) →
      env.specOk = true → env.loadOutcome = .ok → env.hasCallableMain = true →
      env.mainOutcome = .raisesExc →
      processExit (load_and_run_command env) = 1) := by
  refine ⟨?_, ?_, ?_, ?_, ?_⟩
  · intro h1 h2 h3 h4 h5 h6
    rcases env with ⟨k, sc, ss, sp, lo, hm, mo⟩
    cases sc <;> simp_all [load_and_run_command, processExit]
  · intro h1
    simp [load_and_run_command, processExit, h1]
  · intro h1 h2 h3 h4
    rcases env with ⟨k, sc, ss, sp, lo, hm, mo⟩
    cases sc <;> simp_all [load_and_run_command, processExit]
  · intro h1 h2 h3 h4 h5
    rcases env with ⟨k, sc, ss, sp, lo, hm, mo⟩
    cases sc <;> simp_all [load_and_run_command, processExit]
  · intro h1 h2 h3 h4 h5 h6
    rcases env with ⟨k, sc, ss, sp, lo, hm, mo⟩
    cases sc <;> simp_all [load_and_run_command, processExit]

/-- Witness for C5 (amended): a successful official command exits 0. -/
theorem exit_codes_zero_success_one_failure_witness :
    processExit (load_and_run_command ⟨true, false, true, true, .ok, true, .returns⟩) = 0 :=
  (exit_codes_zero_success_one_failure
    ⟨true, false, true, true, .ok, true, .returns⟩).1 rfl (by intro h; exact rfl)
    rfl rfl rfl rfl

/-- C6 counterexample: a plugin whose `main` raises `SystemExit 5` is not
intercepted — no `except` clause on the path catches `SystemExit` — so the
signal propagates out of the loader and the host process terminates with
status 5 instead of reporting a warning. -/
theorem systemexit_escapes_loader :
    load_and_run_command ⟨true, false, true, true, .ok, true, .raisesSystemExit 5⟩ =
      .uncaughtSystemExit 5 ∧
    processExit (load_and_run_command
      ⟨true, false, true, true, .ok, true, .raisesSystemExit 5⟩) = 5 := by
  decide

/-- C6 (amended): a `SystemExit` raised by the plugin's `main` always
propagates uncaught out of `load_and_run_command` (the handlers catch only
`ImportError` and `Exception`) and terminates the host process with the
plugin-supplied code; it is never converted into a warning. -/
theorem plugin_systemexit_propagates (env : RunEnv) (c : Nat)
    (h1 : env.known = true) (h2 : env.sourceCommunity = true → env.secSafe = true)
    (h3 : env.specOk = true) (h4 : env.loadOutcome = .ok)
    (h5 : env.hasCallableMain = true)
    (h6 : env.mainOutcome = .raisesSystemExit c) :
    load_and_run_command env = .uncaughtSystemExit c ∧
    processExit (load_and_run_command env) = c := by
  rcases env with ⟨k, sc, ss, sp, lo, hm, mo⟩
  cases sc <;> simp_all [load_and_run_command, processExit]

/-- Witness for C6 (amended). -/
theorem plugin_systemexit_propagates_witness :
    load_and_run_command ⟨true, false, true, true, .ok, true, .raisesSystemExit 3⟩ =
      .uncaughtSystemExit 3 ∧
    processExit (load_and_run_command
      ⟨true, false, true, true, .ok, true, .raisesSystemExit 3⟩) = 3 :=
  plugin_systemexit_propagates ⟨true, false, true, true, .ok, true, .raisesSystemExit 3⟩
    3 rfl (by intro h; exact rfl) rfl rfl rfl rfl

/-- C7 counterexample: `install ftp://example.com/tool` (scheme `ftp`,
no `--no-verify`) aborts before the clone and creates nothing, but the
handler returns normally, so the process exit status is 0 — not the
non-zero status the claim requires. -/
theorem disallowed_scheme_exits_zero :
    install ⟨"ftp://example.com/tool", false, false, none, false⟩
      ⟨true, "ftp", "example.com", false, false, false, true, .timeoutExpired⟩ =
      ⟨false, false, false, .normalReturn⟩ ∧
    processExit (install ⟨"ftp://example.com/tool", false, false, none, false⟩
      ⟨true, "ftp", "example.com", false, false, false, true,
        .timeoutExpired⟩).outcome = 0 := by
  decide

/-- C7 (amended): with a URL scheme outside the allow-list and no
`--no-verify`, the install aborts before any clone attempt and the target
directory is left exactly as it was (in particular none is created), but
the operation returns normally and the process exits with status 0. -/
theorem disallowed_scheme_aborts_before_clone (args : InstallArgs) (env : InstallEnv)
    (hverify : args.no_verify = false)
    (hgit : env.gitAvailable = true)
    (hscheme : env.scheme ∉ ALLOWED_URL_SCHEMES) :
    install args env = ⟨env.targetExists, false, false, .normalReturn⟩ ∧
    processExit (install args env).outcome = 0 := by
  have hv : (validate_url args.repo_url env.scheme env.netloc ALLOWED_URL_SCHEMES).1 = false := by
    simp [validate_url, hscheme]
  have : install args env = ⟨env.targetExists, false, false, .normalReturn⟩ := by
    unfold install
    simp [hgit, hverify, hv]
  refine ⟨this, ?_⟩
  rw [this]
  rfl

/-- Witness for C7 (amended) at the concrete `ftp` URL. -/
theorem disallowed_scheme_aborts_before_clone_witness :
    install ⟨"ftp://example.com/tool", false, false, none, false⟩
      ⟨true, "ftp", "example.com", true, false, false, true, .timeoutExpired⟩ =
      ⟨true, false, false, .normalReturn⟩ ∧
    processExit (install ⟨"ftp://example.com/tool", false, false, none, false⟩
      ⟨true, "ftp", "example.com", true, false, false, true,
        .timeoutExpired⟩).outcome = 0 :=
  disallowed_scheme_aborts_before_clone
    ⟨"ftp://example.com/tool", false, false, none, false⟩
    ⟨true, "ftp", "example.com", true, false, false, true, .timeoutExpired⟩
    rfl rfl (by decide)

/-- C8: an update invocation that is zero commits behind and not forced is a
pure no-op success: the up-to-date message is printed, the install record on
disk — `last_updated` and every other field — is untouched, the cache is not
invalidated, and the process exits 0. -/
theorem update_up_to_date_noop (args : UpdateArgs) (env : UpdateEnv) (m : InstallMeta)
    (htgt : env.targetExists = true)
    (hmeta : env.meta = some (some m))
    (hgit : env.gitAvailable = true)
    (hurl : ¬(m.repo_url = none ∨ m.repo_url = some ""))
    (hops : env.gitOpsOk = true)
    (hbehind : env.commitsBehind = 0)
    (hforce : args.force = false) :
    update args env = ⟨env.meta, false, .upToDate, .normalReturn⟩ ∧
    processExit (update args env).outcome = 0 := by
  have : update args env = ⟨env.meta, false, .upToDate, .normalReturn⟩ := by
    unfold update
    rw [hmeta]
    simp [htgt, hgit, hurl, hops, hbehind, hforce, hmeta]
  refine ⟨this, ?_⟩
  rw [this]
  rfl

/-- A concrete install record for the C8 witness. -/
def greetMeta : InstallMeta where
  repo_url := some "https://github.com/acme/tool"
  last_updated := some "2024-01-01T00:00:00"

/-- A concrete up-to-date environment for the C8 witness. -/
def greetEnv : UpdateEnv where
  targetExists := true
  meta := some (some greetMeta)
  gitAvailable := true
  gitOpsOk := true
  commitsBehind := 0
  now := "2025-06-01T00:00:00"

/-- Witness for C8 on a concrete installed command. -/
theorem update_up_to_date_noop_witness :
    update ⟨"greet", false⟩ greetEnv =
      ⟨some (some greetMeta), false, .upToDate, .normalReturn⟩ ∧
    processExit (update ⟨"greet", false⟩ greetEnv).outcome = 0 :=
  update_up_to_date_noop ⟨"greet", false⟩ greetEnv greetMeta
    rfl rfl rfl (by simp [greetMeta]) rfl rfl rfl

/-- C9 counterexample: a community command with an absent (or unparseable)
project descriptor gets the description `"Community command"`, not the
`"No description available"` the claim states. -/
theorem community_description_default_cx :
    (load_command_metadata "greet" .community {} {}).description = "Community command" ∧
    (load_command_metadata "greet" .community {} {}).description ≠
      "No description available" := by
  decide

/-- C9 (amended): with the project descriptor absent or unparseable, a
community command defaults to version `"Unknown"`, author `"Unknown"` and
description `"Community command"`; an official command defaults to the fixed
maintainer identity (`"Built-In"`, `"PaoPaoDev"`) and the
`"Built-in command"` description. -/
theorem descriptor_defaults (name : String) :
    load_command_metadata name .community {} {} =
      { name := name, version := "Unknown", author := "Unknown",
        description := "Community command", source := "community" } ∧
    load_command_metadata name .official {} {} =
      { name := name, version := "Built-In", author := "PaoPaoDev",
        description := "Built-in command", source := "official" } :=
  ⟨rfl, rfl⟩

/-- C10: the two maps returned by `get_available_commands` always have the
same key set, and the path stored for a name is the one paired with that
name's metadata in the merged discovery table. -/
theorem metadata_and_path_maps_paired
    (official community : List (String × (CommandMetadata × String))) :
    ((get_available_commands official community).1.map Prod.fst =
      (get_available_commands official community).2.map Prod.fst) ∧
    (∀ k m, dlookup k (get_available_commands official community).1 = some m →
      ∃ p, dlookup k (get_available_commands official community).2 = some p ∧
        dlookup k (dunion official community) = some (m, p)) := by
  constructor
  · show ((dunion official community).map (fun x => (x.1, x.2.1))).map Prod.fst =
      ((dunion official community).map (fun x => (x.1, x.2.2))).map Prod.fst
    rw [List.map_map, List.map_map]
    rfl
  · intro k m hm
    have h1 : Option.map (fun v : CommandMetadata × String => v.1)
        (dlookup k (dunion official community)) = some m := by
      rw [← dlookup_map (fun v : CommandMetadata × String => v.1) k
        (dunion official community)]
      exact hm
    rcases hpair : dlookup k (dunion official community) with _ | pair
    · rw [hpair] at h1; exact absurd h1 (by simp)
    · rw [hpair] at h1
      have h2 : pair.1 = m := by simpa using h1
      refine ⟨pair.2, ?_, ?_⟩
      · show dlookup k ((dunion official community).map (fun x => (x.1, x.2.2))) = _
        rw [dlookup_map (fun v : CommandMetadata × String => v.2) k
          (dunion official community), hpair]
        rfl
      · subst h2
        rfl

/-- Witness for C10 on concrete scan results. -/
theorem metadata_and_path_maps_paired_witness :
    (∃ p, dlookup "a"
        (get_available_commands
          [("a", (({ name := "a" } : CommandMetadata), "/off/a.py"))] []).2 = some p ∧
      dlookup "a" (dunion
          [("a", (({ name := "a" } : CommandMetadata), "/off/a.py"))] []) =
        some (({ name := "a" } : CommandMetadata), p)) :=
  (metadata_and_path_maps_paired
    [("a", (({ name := "a" } : CommandMetadata), "/off/a.py"))] []).2
    "a" { name := "a" } (by decide)

end Paopao
